import Mathlib

/-!
Verification development for the court-data-fetcher scraping core.

The Go sources (internal/scraper/scraper.go, the captcha handler and the
parser in the scraper package) are shallowly embedded below: pure helper
functions become Lean functions, browser state is made explicit, and each
point where the Go code can observe an external outcome (an element lookup,
a navigation, an OCR response, a file read) is a field of an environment
record.  All definitions are executable so that theorems can be checked on
concrete inputs.
-/

set_option maxRecDepth 20000

namespace CourtFetcher

/-! ## String helpers (embedding Go strings.Contains / ToLower / TrimSpace etc.) -/

/-- ASCII-ish character class used by Go's regexp `\s` and `strings.TrimSpace`. -/
def isSpaceCh (c : Char) : Bool :=
  c = ' ' || c = '\t' || c = '\n' || c = '\r' || c = '\x0b' || c = '\x0c'

def isDigitCh (c : Char) : Bool := '0' ≤ c && c ≤ '9'

def isUpperCh (c : Char) : Bool := 'A' ≤ c && c ≤ 'Z'

def digitVal (c : Char) : Nat := c.toNat - '0'.toNat

/-- Exact prefix test on character lists. -/
def isPreOf : List Char → List Char → Bool
  | [], _ => true
  | _ :: _, [] => false
  | p :: ps, c :: cs => p = c && isPreOf ps cs

/-- Case-insensitive prefix consumption: on success returns the remaining input. -/
def ciPreOf : List Char → List Char → Option (List Char)
  | [], l => some l
  | _ :: _, [] => none
  | p :: ps, c :: cs => if p.toLower = c.toLower then ciPreOf ps cs else none

/-- Substring search on character lists (Go `strings.Contains`). -/
def subIn (pat : List Char) : List Char → Bool
  | [] => isPreOf pat []
  | c :: cs => isPreOf pat (c :: cs) || subIn pat cs

/-- Go `strings.Contains s pat`. -/
def strContains (s pat : String) : Bool := subIn pat.data s.data

/-- Go `strings.HasPrefix s pat`. -/
def strStarts (s pat : String) : Bool := isPreOf pat.data s.data

/-- Go `strings.ToLower` (character-wise). -/
def lowerStr (s : String) : String := String.mk (s.data.map Char.toLower)

/-- Go `strings.TrimSpace` on character lists. -/
def trimL (l : List Char) : List Char :=
  ((l.dropWhile isSpaceCh).reverse.dropWhile isSpaceCh).reverse

/-- Go `strings.TrimSpace`. -/
def strTrim (s : String) : String := String.mk (trimL s.data)

/-- Collapse every whitespace run to a single blank: Go `regexp \s+` replaced by a space.
The boolean records whether the previous character was part of a whitespace run. -/
def collapseGo : List Char → Bool → List Char
  | [], _ => []
  | c :: cs, prev =>
    if isSpaceCh c then
      if prev then collapseGo cs true else ' ' :: collapseGo cs true
    else c :: collapseGo cs false

/-- Go `strings.Split s (String.singleton sep)` on character lists. -/
def splitChL (sep : Char) : List Char → List (List Char)
  | [] => [[]]
  | c :: cs =>
    if c = sep then [] :: splitChL sep cs
    else
      match splitChL sep cs with
      | t :: ts => (c :: t) :: ts
      | [] => [[c]]

/-- Go `strings.Split` for a one-character separator. -/
def splitCh (sep : Char) (s : String) : List String :=
  (splitChL sep s.data).map String.mk

/-- Go `strings.Join parts sep` for a one-character separator, on character lists. -/
def joinChL (sep : Char) : List (List Char) → List Char
  | [] => []
  | [p] => p
  | p :: q :: rest => p ++ sep :: joinChL sep (q :: rest)

/-- Go `strings.Join parts "/"`. -/
def joinSlash (parts : List String) : String :=
  String.mk (joinChL '/' (parts.map String.data))

/-- Last-character test, Go `strings.HasSuffix s ":"` for a single character. -/
def endsInCh (s : String) (c : Char) : Bool :=
  match s.data.reverse with
  | [] => false
  | d :: _ => d = c

/-! ## Calendar dates and the court date parser (`parseDate` in the parser file)

Go `time.Time` is represented by its calendar components; the zero
`time.Time` is year 1, month 1, day 1. -/

structure PDate where
  year : Nat
  month : Nat
  day : Nat
  deriving DecidableEq, Repr

/-- The Go zero `time.Time` (`time.Time{}` has year 1, January 1). -/
def zeroPDate : PDate := ⟨1, 1, 1⟩

def read2 : List Char → Option (Nat × List Char)
  | a :: b :: rest =>
    if isDigitCh a && isDigitCh b then some (10 * digitVal a + digitVal b, rest) else none
  | _ => none

def read4 : List Char → Option (Nat × List Char)
  | a :: b :: c :: d :: rest =>
    if isDigitCh a && isDigitCh b && isDigitCh c && isDigitCh d then
      some (1000 * digitVal a + 100 * digitVal b + 10 * digitVal c + digitVal d, rest)
    else none
  | _ => none

def shortMonthNames : List String :=
  ["Jan", "Feb", "Mar", "Apr", "May", "Jun", "Jul", "Aug", "Sep", "Oct", "Nov", "Dec"]

def longMonthNames : List String :=
  ["January", "February", "March", "April", "May", "June", "July", "August",
   "September", "October", "November", "December"]

/-- Go `time` package month-name lookup: first name in the list that is a
case-insensitive prefix of the input; returns its 1-based index and the rest. -/
def lookupMonthGo : List String → Nat → List Char → Option (Nat × List Char)
  | [], _, _ => none
  | n :: ns, i, l =>
    match ciPreOf n.data l with
    | some rest => some (i, rest)
    | none => lookupMonthGo ns (i + 1) l

/-- Interpreter for the Go layout strings used by `parseDate`: the reference
components are `2006` (4-digit year), `01` (2-digit month), `02` (2-digit day),
`Jan` (abbreviated month name), `January` (full month name); every other layout
character must match the input literally, and the whole input must be consumed. -/
def runLayout : List Char → List Char → Nat → Nat → Nat → Option (Nat × Nat × Nat)
  | '2' :: '0' :: '0' :: '6' :: lay, inp, _, m, d =>
    match read4 inp with
    | some (y2, rest) => runLayout lay rest y2 m d
    | none => none
  | 'J' :: 'a' :: 'n' :: 'u' :: 'a' :: 'r' :: 'y' :: lay, inp, y, _, d =>
    match lookupMonthGo longMonthNames 1 inp with
    | some (m2, rest) => runLayout lay rest y m2 d
    | none => none
  | 'J' :: 'a' :: 'n' :: lay, inp, y, _, d =>
    match lookupMonthGo shortMonthNames 1 inp with
    | some (m2, rest) => runLayout lay rest y m2 d
    | none => none
  | '0' :: '2' :: lay, inp, y, m, _ =>
    match read2 inp with
    | some (d2, rest) => runLayout lay rest y m d2
    | none => none
  | '0' :: '1' :: lay, inp, y, _, d =>
    match read2 inp with
    | some (m2, rest) => runLayout lay rest y m2 d
    | none => none
  | c :: lay, inp, y, m, d =>
    match inp with
    | c2 :: rest => if c = c2 then runLayout lay rest y m d else none
    | [] => none
  | [], inp, y, m, d => if inp.isEmpty then some (y, m, d) else none

def isLeapYear (y : Nat) : Bool := (y % 4 = 0 && y % 100 ≠ 0) || y % 400 = 0

def daysInMonth (m y : Nat) : Nat :=
  if m = 2 then (if isLeapYear y then 29 else 28)
  else if m = 4 || m = 6 || m = 9 || m = 11 then 30
  else 31

/-- Go `time.Parse layout value` for the layouts used by the scraper,
including the month/day range validation `time.Parse` performs. -/
def timeParse (layout value : String) : Option PDate :=
  match runLayout layout.data value.data 0 1 1 with
  | some (y, m, d) =>
    if 1 ≤ m && m ≤ 12 && 1 ≤ d && d ≤ daysInMonth m y then some ⟨y, m, d⟩ else none
  | none => none

/-- The ordered format list from `parseDate` in the parser file. -/
def dateFormats : List String :=
  ["02-01-2006", "02/01/2006", "02.01.2006", "02-Jan-2006", "02-January-2006",
   "02 Jan 2006", "02 January 2006", "2006-01-02", "Jan 02, 2006", "January 02, 2006"]

def tryFormats : List String → String → Option PDate
  | [], _ => none
  | f :: fs, s =>
    match timeParse f s with
    | some d => some d
    | none => tryFormats fs s

def weekdayNames : List String :=
  ["Monday", "Tuesday", "Wednesday", "Thursday", "Friday", "Saturday", "Sunday"]

/-- Match the regex `(?i)(Monday|...|Sunday),?\s*` at the head of the input:
a case-insensitive weekday name, an optional comma, then any whitespace. -/
def tryWeekdayGo : List String → List Char → Option (List Char)
  | [], _ => none
  | n :: ns, l =>
    match ciPreOf n.data l with
    | some rest =>
      let rest1 := match rest with
        | ',' :: r => r
        | r => r
      some (rest1.dropWhile isSpaceCh)
    | none => tryWeekdayGo ns l

/-- Go `regexp.ReplaceAllString` of the weekday pattern with the empty string:
leftmost non-overlapping matches are removed.  The fuel argument (the input
length) only makes the recursion structural; each step consumes input. -/
def stripWeekdaysGo : Nat → List Char → List Char
  | 0, l => l
  | fuel + 1, l =>
    match l with
    | [] => []
    | c :: cs =>
      match tryWeekdayGo weekdayNames (c :: cs) with
      | some rest => stripWeekdaysGo fuel rest
      | none => c :: stripWeekdaysGo fuel cs

/-- The date cleanup at the top of `parseDate`: `TrimSpace` then `\s+` → `" "`. -/
def cleanupDate (s : String) : String := String.mk (collapseGo (trimL s.data) false)

/-- Embedding of `parseDate` (parser file, lines 827-863): try the format list
on the cleaned string, then retry after stripping leading weekday names,
and report an error if everything fails. -/
def parseDate (dateStr : String) : Except String PDate :=
  let s1 := cleanupDate dateStr
  match tryFormats dateFormats s1 with
  | some d => .ok d
  | none =>
    let s2 := String.mk (stripWeekdaysGo s1.data.length s1.data)
    match tryFormats dateFormats s2 with
    | some d => .ok d
    | none => .error ("unable to parse date: " ++ s2)

/-- The Go pattern `x, _ = p.parseDate(v)`: the zero time on failure. -/
def parseDateOrZero (s : String) : PDate :=
  match parseDate s with
  | .ok d => d
  | .error _ => zeroPDate

/-! ## Data model (internal/database models used by the scraper) -/

structure Party where
  name : String := ""
  type : String := ""
  advocateName : String := ""
  advocateCode : String := ""
  deriving DecidableEq, Repr

structure Order where
  orderDate : PDate := zeroPDate
  description : String := ""
  pdfLink : String := ""
  judgeName : String := ""
  deriving DecidableEq, Repr

structure CaseInfo where
  caseNumber : String := ""
  caseType : String := ""
  filingYear : String := ""
  filingDate : PDate := zeroPDate
  nextHearing : PDate := zeroPDate
  status : String := ""
  judge : String := ""
  courtComplex : String := ""
  parties : List Party := []
  orders : List Order := []
  deriving DecidableEq, Repr

/-! ## Hand-compiled recognisers for the regular expressions in the parser file.

Each Go `regexp.FindString`/`FindStringSubmatch` call is embedded as a scanner
that tries the pattern at every start position, leftmost first, with the
greedy-with-backtracking semantics Go's leftmost-first matching uses. -/

def isSepCh (c : Char) : Bool := c = '/' || c = '-'

def isPunctSpCh (c : Char) : Bool := c = '.' || isSpaceCh c || c = ':'

def isUpperDigitCh (c : Char) : Bool := isUpperCh c || isDigitCh c

def firstSome : List α → (α → Option β) → Option β
  | [], _ => none
  | a :: rest, f =>
    match f a with
    | some b => some b
    | none => firstSome rest f

/-- Generic leftmost scan: try the position matcher at every suffix. -/
def scanFor (f : List Char → Option (List Char)) : List Char → Option (List Char)
  | [] => f []
  | c :: cs =>
    match f (c :: cs) with
    | some r => some r
    | none => scanFor f cs

/-- Tail of the group `\d+[\/\-]?\d+` after the first maximal digit run `ds`:
either a separator followed by more digits, or the run itself split in two
(which requires at least two digits). -/
def grpSecondPart (ds : List Char) (r2 : List Char) : Option (List Char) :=
  match r2 with
  | s :: rest =>
    if isSepCh s then
      let ds2 := rest.takeWhile isDigitCh
      if ds2.isEmpty then (if ds.length ≥ 2 then some ds else none)
      else some (ds ++ s :: ds2)
    else if ds.length ≥ 2 then some ds else none
  | [] => if ds.length ≥ 2 then some ds else none

/-- The capture group `[A-Z]+[\/\-]?\d+[\/\-]?\d+`. -/
def grpTypeNum (l : List Char) : Option (List Char) :=
  let up := l.takeWhile isUpperCh
  let r1 := l.dropWhile isUpperCh
  if up.isEmpty then none
  else
    match r1 with
    | s :: rest =>
      if isSepCh s then
        let ds := rest.takeWhile isDigitCh
        let r2 := rest.dropWhile isDigitCh
        if ds.isEmpty then none
        else (grpSecondPart ds r2).map (fun tail => up ++ s :: tail)
      else
        let ds := r1.takeWhile isDigitCh
        let r2 := r1.dropWhile isDigitCh
        if ds.isEmpty then none
        else (grpSecondPart ds r2).map (fun tail => up ++ tail)
    | [] => none

/-- Position matcher for `Case\s*No[\.\s:]+([A-Z]+[\/\-]?\d+[\/\-]?\d+)`. -/
def tryCaseNoAt (l : List Char) : Option (List Char) :=
  if isPreOf "Case".data l then
    let r1 := (l.drop 4).dropWhile isSpaceCh
    if isPreOf "No".data r1 then
      let r2 := r1.drop 2
      let sep := r2.takeWhile isPunctSpCh
      if sep.isEmpty then none else grpTypeNum (r2.dropWhile isPunctSpCh)
    else none
  else none

/-- Position matcher for `CNR\s*Number[\.\s:]+([A-Z0-9]+)`. -/
def tryCnrAt (l : List Char) : Option (List Char) :=
  if isPreOf "CNR".data l then
    let r1 := (l.drop 3).dropWhile isSpaceCh
    if isPreOf "Number".data r1 then
      let r2 := r1.drop 6
      let sep := r2.takeWhile isPunctSpCh
      if sep.isEmpty then none
      else
        let g := (r2.dropWhile isPunctSpCh).takeWhile isUpperDigitCh
        if g.isEmpty then none else some g
    else none
  else none

/-- Position matcher for `([A-Z]+[\/\-]\d+[\/\-]\d{4})`. -/
def tryBareCaseAt (l : List Char) : Option (List Char) :=
  let up := l.takeWhile isUpperCh
  let r1 := l.dropWhile isUpperCh
  if up.isEmpty then none
  else
    match r1 with
    | s1 :: r2 =>
      if isSepCh s1 then
        let ds := r2.takeWhile isDigitCh
        let r3 := r2.dropWhile isDigitCh
        if ds.isEmpty then none
        else
          match r3 with
          | s2 :: r4 =>
            if isSepCh s2 && r4.length ≥ 4 && (r4.take 4).all isDigitCh then
              some (up ++ s1 :: ds ++ s2 :: r4.take 4)
            else none
          | [] => none
      else none
    | [] => none

/-- Position matcher for `\d{4}` (used on filing numbers). -/
def try4At (l : List Char) : Option (List Char) :=
  if l.length ≥ 4 && (l.take 4).all isDigitCh then some (l.take 4) else none

def find4Digits (l : List Char) : Option (List Char) := scanFor try4At l

/-- Position matcher for `Year[\.\s:]+(\d{4})`. -/
def tryYearAt (l : List Char) : Option (List Char) :=
  if isPreOf "Year".data l then
    let r1 := l.drop 4
    let sep := r1.takeWhile isPunctSpCh
    if sep.isEmpty then none
    else
      let r2 := r1.dropWhile isPunctSpCh
      if r2.length ≥ 4 && (r2.take 4).all isDigitCh then some (r2.take 4) else none
  else none

/-- Greedy candidates for `\d{1,2}`: two digits preferred, then one. -/
def digits2cands (l : List Char) : List (List Char × List Char) :=
  match l with
  | a :: b :: rest =>
    if isDigitCh a && isDigitCh b then [([a, b], rest), ([a], b :: rest)]
    else if isDigitCh a then [([a], b :: rest)]
    else []
  | [a] => if isDigitCh a then [([a], [])] else []
  | [] => []

/-- Position matcher for the date pattern `\d{1,2}[\-\/]\d{1,2}[\-\/]\d{4}`. -/
def tryDateAt (l : List Char) : Option (List Char) :=
  firstSome (digits2cands l) (fun pr1 =>
    match pr1.2 with
    | s1 :: r2 =>
      if isSepCh s1 then
        firstSome (digits2cands r2) (fun pr2 =>
          match pr2.2 with
          | s2 :: r4 =>
            if isSepCh s2 && r4.length ≥ 4 && (r4.take 4).all isDigitCh then
              some (pr1.1 ++ s1 :: pr2.1 ++ s2 :: r4.take 4)
            else none
          | [] => none)
      else none
    | [] => none)

/-- Go `strings.Split` generalised to a character class, for the
`regexp [\/\-] Split` call deriving the case type from the case number. -/
def splitClassL (p : Char → Bool) : List Char → List (List Char)
  | [] => [[]]
  | c :: cs =>
    if p c then [] :: splitClassL p cs
    else
      match splitClassL p cs with
      | t :: ts => (c :: t) :: ts
      | [] => [[c]]

/-! ## Result extractor, tier functions (`parseCaseDetailsFrom...`) -/

/-- Embedding of `parseCaseDetailsFromTable`: rows are the texts of the
`td, th` cells of each `tr`; the Go `switch` takes the first matching branch. -/
def parseCaseDetailsFromTable (rows : List (List String)) (ci : CaseInfo) : CaseInfo :=
  rows.foldl
    (fun ci cells =>
      match cells with
      | c0 :: c1 :: _ =>
        let label := lowerStr (strTrim c0)
        let value := strTrim c1
        if strContains label "case number" || strContains label "cnr" then
          {ci with caseNumber := value}
        else if strContains label "case type" then {ci with caseType := value}
        else if strContains label "filing number" then
          match find4Digits value.data with
          | some m => {ci with filingYear := String.mk m}
          | none => ci
        else if strContains label "filing date" || strContains label "date of filing" then
          {ci with filingDate := parseDateOrZero value}
        else if strContains label "registration date" then
          if ci.filingDate = zeroPDate then {ci with filingDate := parseDateOrZero value} else ci
        else if strContains label "next date" || strContains label "next hearing" then
          {ci with nextHearing := parseDateOrZero value}
        else if strContains label "stage" || strContains label "status" then
          {ci with status := value}
        else if strContains label "judge" || strContains label "coram" then
          {ci with judge := value}
        else if strContains label "court" && !strContains label "court number" then
          {ci with courtComplex := value}
        else ci
      | _ => ci)
    ci

/-- Embedding of `parseCaseDetailsFromDivs`: the list holds the texts of the
container's `div, span` elements in document order; an element whose trimmed
text ends in a colon is a label whose value is the next element's text. -/
def parseCaseDetailsFromDivs : List String → CaseInfo → CaseInfo
  | [], ci => ci
  | t :: rest, ci =>
    let text := strTrim t
    let lower := lowerStr text
    let ci :=
      if endsInCh text ':' then
        match rest with
        | v0 :: _ =>
          let value := strTrim v0
          if strContains lower "case no" then {ci with caseNumber := value}
          else if strContains lower "case type" then {ci with caseType := value}
          else if strContains lower "year" then {ci with filingYear := value}
          else if strContains lower "filing date" then {ci with filingDate := parseDateOrZero value}
          else if strContains lower "next date" then {ci with nextHearing := parseDateOrZero value}
          else if strContains lower "status" then {ci with status := value}
          else if strContains lower "judge" then {ci with judge := value}
          else ci
        | [] => ci
      else ci
    parseCaseDetailsFromDivs rest ci

/-- The ordered case-number pattern list of `parseCaseDetailsFromText`
(`Case No`, `CNR Number`, bare `TYPE/NUMBER/YEAR`), first match wins. -/
def caseNumScan (chars : List Char) : Option String :=
  match scanFor tryCaseNoAt chars with
  | some g => some (String.mk g)
  | none =>
    match scanFor tryCnrAt chars with
    | some g => some (String.mk g)
    | none => (scanFor tryBareCaseAt chars).map String.mk

/-- The per-line context scan of `parseCaseDetailsFromText`: lines mentioning
filing/institution set the filing date, lines mentioning next+date set the
next hearing, each from the first date-pattern match in the line. -/
def textDatesGo (lines : List String) (ci : CaseInfo) : CaseInfo :=
  lines.foldl
    (fun ci line =>
      let lower := lowerStr line
      let ci :=
        if strContains lower "filing date" || strContains lower "institution" then
          match scanFor tryDateAt line.data with
          | some d => {ci with filingDate := parseDateOrZero (String.mk d)}
          | none => ci
        else ci
      if strContains lower "next" && strContains lower "date" then
        match scanFor tryDateAt line.data with
        | some d => {ci with nextHearing := parseDateOrZero (String.mk d)}
        | none => ci
      else ci)
    ci

/-- Embedding of `parseCaseDetailsFromText` (regex tier). -/
def parseCaseDetailsFromText (text : String) (ci : CaseInfo) : CaseInfo :=
  let ci :=
    match caseNumScan text.data with
    | some v => {ci with caseNumber := v}
    | none => ci
  let ci :=
    if ci.caseType = "" && ci.caseNumber ≠ "" then
      match splitClassL isSepCh ci.caseNumber.data with
      | p :: _ => {ci with caseType := String.mk p}
      | [] => ci
    else ci
  let ci :=
    match scanFor tryYearAt text.data with
    | some y => {ci with filingYear := String.mk y}
    | none => ci
  textDatesGo (splitCh '\n' text) ci

/-! ## Party extraction -/

/-- Separator match for `\s+(?:and|AND|And|&)\s+` at a position; returns the
rest of the input after the separator. -/
def trySepAt (l : List Char) : Option (List Char) :=
  let sp1 := l.takeWhile isSpaceCh
  if sp1.isEmpty then none
  else
    let r1 := l.dropWhile isSpaceCh
    firstSome ["and", "AND", "And", "&"] (fun w =>
      if isPreOf w.data r1 then
        let r2 := r1.drop w.data.length
        let sp2 := r2.takeWhile isSpaceCh
        if sp2.isEmpty then none else some (r2.dropWhile isSpaceCh)
      else none)

/-- Go `regexp.Split` on the name-separator pattern.  The fuel argument (the
input length) makes the recursion structural; a separator always consumes at
least three characters. -/
def splitPartsGo : Nat → List Char → List Char → List (List Char)
  | 0, cur, l => [cur.reverse ++ l]
  | fuel + 1, cur, l =>
    match l with
    | [] => [cur.reverse]
    | c :: cs =>
      match trySepAt (c :: cs) with
      | some rest => cur.reverse :: splitPartsGo fuel [] rest
      | none => splitPartsGo fuel (c :: cur) cs

/-- Anchored-at-end match of `\s*(?:etc\.?|\d+\.?)$` consuming the whole rest. -/
def trailAt (l : List Char) : Bool :=
  let r := l.dropWhile isSpaceCh
  (isPreOf "etc".data r && (r.drop 3 = [] || r.drop 3 = ['.'])) ||
    (let ds := r.takeWhile isDigitCh
     let r2 := r.dropWhile isDigitCh
     !ds.isEmpty && (r2 = [] || r2 = ['.']))

/-- Go `ReplaceAllString` of the trailing etc/number pattern with the empty
string: the text is cut at the leftmost position from which the pattern
matches through to the end. -/
def stripTrail : List Char → List Char
  | [] => []
  | c :: cs => if trailAt (c :: cs) then [] else c :: stripTrail cs

/-- Embedding of `extractPartyNames`: normalise whitespace, split on
and/AND/And/&, strip trailing etc/numbering, keep names longer than 2. -/
def extractPartyNames (text : String) : List String :=
  let t := collapseGo (trimL text.data) false
  let parts := splitPartsGo t.length [] t
  parts.foldr
    (fun part acc =>
      let name := stripTrail (trimL part)
      if name ≠ [] && name.length > 2 then String.mk name :: acc else acc)
    []

/-- Embedding of `parsePartiesFromTable` (header row skipped; `td` cell texts). -/
def partyRowsGo : List (List String) → List Party
  | [] => []
  | cells :: rest =>
    match cells with
    | c0 :: c1 :: extra =>
      let partyType := strTrim c0
      let pt :=
        if strContains (lowerStr partyType) "petitioner" then "Petitioner"
        else if strContains (lowerStr partyType) "respondent" then "Respondent"
        else partyType
      let nm := strTrim c1
      let adv := match extra with | a :: _ => strTrim a | [] => ""
      let code := match extra with | _ :: b :: _ => strTrim b | _ => ""
      if nm ≠ "" then
        ({name := nm, type := pt, advocateName := adv, advocateCode := code} : Party)
          :: partyRowsGo rest
      else partyRowsGo rest
    | _ => partyRowsGo rest

def parsePartiesFromTable (rows : List (List String)) : List Party :=
  partyRowsGo (rows.drop 1)

/-- Embedding of `parsePartiesFromDivs`: optional petitioner and respondent
section texts. -/
def parsePartiesFromDivs (pet resp : Option String) : List Party :=
  (match pet with
   | some t => (extractPartyNames t).map (fun n => ({name := n, type := "Petitioner"} : Party))
   | none => []) ++
  (match resp with
   | some t => (extractPartyNames t).map (fun n => ({name := n, type := "Respondent"} : Party))
   | none => [])

def isLineCh (c : Char) : Bool := !(c = '\n' || c = '\r')

/-- Backtracking for `\s*([^\n\r]+)`: the greedy whitespace run retreats until
the capture can start with a non-newline character. -/
def capGo (l : List Char) : Nat → Option (List Char)
  | 0 =>
    match l with
    | c :: _ => if isLineCh c then some (l.takeWhile isLineCh) else none
    | [] => none
  | i + 1 =>
    let r := l.drop (i + 1)
    match r with
    | c :: _ => if isLineCh c then some (r.takeWhile isLineCh) else capGo l i
    | [] => capGo l i

def captureAfterWsStar (l : List Char) : Option (List Char) :=
  capGo l (l.takeWhile isSpaceCh).length

/-- The sixteen assignments of the optional tokens `\(? \s? \)? :?` in the
greedy backtracking order of a leftmost-first engine. -/
def optCombos : List (Bool × Bool × Bool × Bool) :=
  [(true, true, true, true), (true, true, true, false), (true, true, false, true),
   (true, true, false, false), (true, false, true, true), (true, false, true, false),
   (true, false, false, true), (true, false, false, false), (false, true, true, true),
   (false, true, true, false), (false, true, false, true), (false, true, false, false),
   (false, false, true, true), (false, false, true, false), (false, false, false, true),
   (false, false, false, false)]

def applyOptCl (flag : Bool) (p : Char → Bool) (l : List Char) : Option (List Char) :=
  if flag then
    match l with
    | x :: rest => if p x then some rest else none
    | [] => none
  else some l

/-- Position matcher for `(?i)KEYWORD\(?\s?\)?:?\s*([^\n\r]+)`. -/
def tryPartyAt (keyword : String) (l : List Char) : Option (List Char) :=
  match ciPreOf keyword.data l with
  | none => none
  | some r0 =>
    firstSome optCombos (fun combo =>
      match applyOptCl combo.1 (fun c => c = '(') r0 with
      | none => none
      | some r1 =>
        match applyOptCl combo.2.1 isSpaceCh r1 with
        | none => none
        | some r2 =>
          match applyOptCl combo.2.2.1 (fun c => c = ')') r2 with
          | none => none
          | some r3 =>
            match applyOptCl combo.2.2.2 (fun c => c = ':') r3 with
            | none => none
            | some r4 => captureAfterWsStar r4)

def scanParty (keyword : String) (text : String) : Option String :=
  (scanFor (tryPartyAt keyword) text.data).map String.mk

/-- Embedding of `parsePartiesFromText`. -/
def parsePartiesFromText (text : String) : List Party :=
  (match scanParty "Petitioner" text with
   | some cap => (extractPartyNames cap).map (fun n => ({name := n, type := "Petitioner"} : Party))
   | none => []) ++
  (match scanParty "Respondent" text with
   | some cap => (extractPartyNames cap).map (fun n => ({name := n, type := "Respondent"} : Party))
   | none => [])

/-! ## Pages and the extractor dispatcher (`ParseCaseDetails`) -/

/-- Observable content of a result page as the extractor reads it: the details
container with its optional table, its div/span texts and its text, the three
party sources, and the optional case-history rows. -/
structure DetailsPage where
  containerPresent : Bool := true
  containerTable : Option (List (List String)) := none
  containerDivTexts : List String := []
  containerText : String := ""
  partyTable : Option (List (List String)) := none
  partyDivContainer : Option (Option String × Option String) := none
  partyBodyText : String := ""
  historyRows : Option (List String) := none
  deriving DecidableEq, Repr

/-- Embedding of `parseParties`: party table, then div sections, then text
patterns.  In the source every branch returns a nil error, so the error path
of the Go signature never fires and the result is the plain party list. -/
def parseParties (pg : DetailsPage) : List Party :=
  match pg.partyTable with
  | some rows => parsePartiesFromTable rows
  | none =>
    match pg.partyDivContainer with
    | some pr => parsePartiesFromDivs pr.1 pr.2
    | none => parsePartiesFromText pg.partyBodyText

/-- Embedding of the row loop of `parseCaseHistory`: a disposed/decided row
sets the status and stops; a pending row sets the status and continues. -/
def parseCaseHistoryGo : List String → CaseInfo → CaseInfo
  | [], ci => ci
  | r :: rs, ci =>
    let t := lowerStr r
    if strContains t "disposed" || strContains t "decided" then {ci with status := "Disposed"}
    else if strContains t "pending" then parseCaseHistoryGo rs {ci with status := "Pending"}
    else parseCaseHistoryGo rs ci

def parseCaseHistory (pg : DetailsPage) (ci : CaseInfo) : CaseInfo :=
  match pg.historyRows with
  | none => ci
  | some rows => parseCaseHistoryGo rows ci

/-- Embedding of `ParseCaseDetails` (parser file, lines 399-442): table tier,
then div tier and text tier while the case number is still empty, hard
failure when no tier produced a case number, then parties and history. -/
def ParseCaseDetails (pg : DetailsPage) : Except String CaseInfo :=
  if pg.containerPresent = false then .error "case details container not found"
  else
    let ci0 : CaseInfo := {}
    let ci1 :=
      match pg.containerTable with
      | some rows => parseCaseDetailsFromTable rows ci0
      | none => ci0
    let ci2 := if ci1.caseNumber = "" then parseCaseDetailsFromDivs pg.containerDivTexts ci1 else ci1
    let ci3 := if ci2.caseNumber = "" then parseCaseDetailsFromText pg.containerText ci2 else ci2
    if ci3.caseNumber = "" then .error "failed to extract case number"
    else .ok (parseCaseHistory pg {ci3 with parties := parseParties pg})

/-! ## Order extraction (`ParseOrders`, `makeAbsoluteURL`) -/

/-- One `td` cell of an orders-table row: its text and the `href` targets of
its `a` elements in document order. -/
structure OrderCell where
  text : String := ""
  links : List String := []
  deriving DecidableEq, Repr

/-- Observable content of the orders view: the first table matched by the id,
class and summary selectors if any, the remaining tables (text and rows) for
the heuristic scan, and the current page URL. -/
structure OrdersPage where
  selectorTable : Option (List (List OrderCell)) := none
  heuristicTables : List (String × List (List OrderCell)) := []
  pageURL : String := ""
  deriving DecidableEq, Repr

/-- The fallback table heuristic: text contains "order" (lowercased) and the
literal "PDF" or "Download". -/
def ordersHeuristic (t : String) : Bool :=
  strContains (lowerStr t) "order" && (strContains t "PDF" || strContains t "Download")

def chosenOrdersTable (pg : OrdersPage) : Option (List (List OrderCell)) :=
  match pg.selectorTable with
  | some rows => some rows
  | none => (pg.heuristicTables.find? (fun pr => ordersHeuristic pr.1)).map (fun pr => pr.2)

def linkMatches (href : String) : Bool :=
  strContains (lowerStr href) "pdf" || strContains (lowerStr href) "download" ||
    strContains (lowerStr href) "order"

/-- Embedding of `makeAbsoluteURL` (parser file, lines 866-888). -/
def makeAbsoluteURL (pageURL relativeURL : String) : String :=
  if strStarts relativeURL "http://" || strStarts relativeURL "https://" then relativeURL
  else
    let parts := splitCh '/' pageURL
    if parts.length ≥ 3 then
      let baseURL := joinSlash (parts.take 3)
      if strStarts relativeURL "/" then baseURL ++ relativeURL
      else joinSlash parts.dropLast ++ "/" ++ relativeURL
    else relativeURL

/-- The PDF-link scan over a row's cells: within a cell the first matching
link wins, but the cell loop keeps going, so a later cell with a matching
link overwrites the slot. -/
def rowPdfLink (pageURL : String) (cells : List OrderCell) : String :=
  cells.foldl
    (fun acc c =>
      match c.links.find? linkMatches with
      | some href => makeAbsoluteURL pageURL href
      | none => acc)
    ""

/-- One iteration of the `ParseOrders` row loop: rows with fewer than two
cells are skipped, and a row is kept only when the parsed order date has a
year above 1900 (an unparsed date is the zero time, year 1). -/
def processOrderRow (pageURL : String) (cells : List OrderCell) : Option Order :=
  match cells with
  | c0 :: c1 :: extra =>
    let dateStr := strTrim c0.text
    let orderDate := if dateStr ≠ "" then parseDateOrZero dateStr else zeroPDate
    let o : Order :=
      { orderDate := orderDate
        description := strTrim c1.text
        pdfLink := rowPdfLink pageURL (c0 :: c1 :: extra)
        judgeName := match extra with | c2 :: _ => strTrim c2.text | [] => "" }
    if o.orderDate.year > 1900 then some o else none
  | _ => none

def parseOrderRows (pageURL : String) : List (List OrderCell) → List Order
  | [] => []
  | r :: rs =>
    match processOrderRow pageURL r with
    | some o => o :: parseOrderRows pageURL rs
    | none => parseOrderRows pageURL rs

/-- Embedding of `ParseOrders` (parser file, lines 719-801): locate the table,
report an error when none is found, otherwise process the rows after the
header. -/
def ParseOrders (pg : OrdersPage) : Except String (List Order) :=
  match chosenOrdersTable pg with
  | none => .error "orders table not found"
  | some rows => .ok (parseOrderRows pg.pageURL (rows.drop 1))

/-! ## CAPTCHA resolution chain (captcha handler file)

Time is modelled in whole seconds; every external observation the Go code can
make (environment keys, OCR responses, the value of the manual input field at
a time, the content of the solution file at a time) is a field of
`CaptchaEnv`.  The two polling loops are embedded with their literal bounds:
the manual-input loop polls sixty times at one-second intervals, the
remote-solution loop polls every two seconds until its deadline. -/

inductive CaptchaErr
  | imageFailed
  | manualFailed
  | unsolved
  | inputNotFound
  deriving DecidableEq, Repr

/-- The loop of `waitForManualSolution`: while the deadline has not passed,
read the solution file; a non-blank content is returned trimmed at the read
time, otherwise sleep two seconds.  The fuel argument only makes the
recursion structural; the wrapper passes enough fuel for every iteration. -/
def waitGo (file : Nat → Option String) (deadline : Nat) : Nat → Nat → Option String × Nat
  | fuel, now =>
    if now < deadline then
      let s := strTrim ((file now).getD "")
      if s ≠ "" then (some s, now)
      else
        match fuel with
        | 0 => (none, now)
        | f + 1 => waitGo file deadline f (now + 2)
    else (none, now)

/-- Embedding of `waitForManualSolution` (captcha file, lines 321-338). -/
def waitForManualSolution (file : Nat → Option String) (timeout now : Nat) :
    Option String × Nat :=
  waitGo file (now + timeout) timeout now

/-- The sixty one-second polls of `waitForManualCaptchaInput`. -/
def manualGo (value : Nat → String) : Nat → Nat → Except Unit String × Nat
  | 0, now => (.error (), now)
  | fuel + 1, now =>
    let t := now + 1
    if value t ≠ "" then (.ok (value t), t) else manualGo value fuel t

/-- Embedding of `waitForManualCaptchaInput` (captcha file, lines 292-311):
an error when the input element is missing, otherwise sixty one-second polls
of the field value. -/
def waitForManualCaptchaInput (found : Bool) (value : Nat → String) (now : Nat) :
    Except Unit String × Nat :=
  if found then manualGo value 60 now else (.error (), now)

/-- Observable environment of one `handleCaptcha` run. -/
structure CaptchaEnv where
  captchaPresent : Bool := true
  imageOk : Bool := true
  twoKey : String := ""
  twoRes : String := ""
  twoElapsed : Nat := 0
  antiKey : String := ""
  antiRes : String := ""
  antiElapsed : Nat := 0
  headless : Bool := true
  manualFieldFound : Bool := true
  manualValue : Nat → String := fun _ => ""
  saveOk : Bool := true
  solutionFile : Nat → Option String := fun _ => none
  inputFieldFound : Bool := true

/-- The tail of `handleCaptcha` after the interactive step: the file-based
remote handoff runs only while the text is still empty and the image was
saved, then an empty text is the unsolved error, and a non-empty text is
typed into the captcha input field (whose absence is its own error). -/
def captchaAfterManual (e : CaptchaEnv) (text : String) (now : Nat) :
    Except CaptchaErr (Option String) × Nat :=
  let s4 :=
    if text = "" then
      if e.saveOk then
        let w := waitForManualSolution e.solutionFile 60 now
        (w.1.getD "", w.2)
      else (text, now)
    else (text, now)
  if s4.1 = "" then (.error .unsolved, s4.2)
  else if e.inputFieldFound = false then (.error .inputNotFound, s4.2)
  else (.ok (some s4.1), s4.2)

/-- Embedding of `handleCaptcha` (captcha file, lines 31-101) with explicit
time: no captcha element is an immediate pass-through; then 2Captcha if its
key is set, Anti-Captcha if the text is still empty and its key is set, the
interactive manual wait if the text is still empty and the session is not
headless (whose failure aborts the chain), and the remote file handoff if the
text is still empty. -/
def handleCaptchaT (e : CaptchaEnv) (now : Nat) : Except CaptchaErr (Option String) × Nat :=
  if e.captchaPresent = false then (.ok none, now)
  else if e.imageOk = false then (.error .imageFailed, now)
  else
    let s1 := if e.twoKey ≠ "" then (e.twoRes, now + e.twoElapsed) else (("" : String), now)
    let s2 := if s1.1 = "" ∧ e.antiKey ≠ "" then (e.antiRes, s1.2 + e.antiElapsed) else s1
    if s2.1 = "" ∧ e.headless = false then
      match waitForManualCaptchaInput e.manualFieldFound e.manualValue s2.2 with
      | (.error _, t) => (.error .manualFailed, t)
      | (.ok v, t) => captchaAfterManual e v t
    else captchaAfterManual e s2.1 s2.2

/-- The untimed view of the chain. -/
def handleCaptcha (e : CaptchaEnv) : Except CaptchaErr (Option String) :=
  (handleCaptchaT e 0).1

/-! ## Search protocol driver (`SearchCase`, `checkForErrors`, scraper.go) -/

inductive ErrKind
  | pageCreateFailed
  | navigationFailed
  | elementNotFound (field : String)
  | captchaFailed (e : CaptchaErr)
  | searchError (msg : String)
  | parseFailed (msg : String)
  deriving DecidableEq, Repr

/-- Navigation side effects observable during one query. -/
inductive NavEvent
  | navigate
  deriving DecidableEq, Repr

/-- The selector pass of `checkForErrors`: the four error selectors in order,
first found element with non-empty text wins. -/
def selScan : List (Option String) → Option String
  | [] => none
  | some s :: rest => if s ≠ "" then some s else selScan rest
  | none :: rest => selScan rest

/-- Embedding of `checkForErrors` (scraper.go, lines 255-287): error-selector
texts first, then a case-insensitive scan of the body text for "no record",
"not found" and "invalid case", all mapped to one generic message. -/
def checkForErrors (selTexts : List (Option String)) (body : Option String) : String :=
  match selScan selTexts with
  | some s => s
  | none =>
    match body with
    | some b =>
      let lt := lowerStr b
      if strContains lt "no record" || strContains lt "not found" ||
          strContains lt "invalid case" then
        "No records found for the given case details"
      else ""
    | none => ""

/-- Observable environment of one `SearchCase` run: which element lookups
succeed, the page snapshot `page.HTML()` returns, the captcha environment,
the error-check inputs, and the result/orders pages handed to the parser. -/
structure SearchEnv where
  pageCreateOk : Bool := true
  navOk : Bool := true
  html : String := ""
  caseTypeFound : Bool := true
  caseNumberFound : Bool := true
  yearFound : Bool := true
  captcha : CaptchaEnv := {}
  submitFound : Bool := true
  selErrTexts : List (Option String) := []
  bodyText : Option String := none
  resultsTablePresent : Bool := true
  details : DetailsPage := {}
  ordersTabPresent : Bool := false
  ordersPage : OrdersPage := {}

/-- Embedding of `parseResults` (scraper.go, lines 290-308). -/
def parseResults (env : SearchEnv) : Except String CaseInfo :=
  if env.resultsTablePresent = false then .error "no results table found"
  else ParseCaseDetails env.details

/-- Embedding of `fetchAdditionalDetails` (scraper.go, lines 311-338): an
orders tab, when present, re-extracts the order list; a failing order parse
is only logged and leaves the record unchanged. -/
def fetchAdditionalDetails (env : SearchEnv) (ci : CaseInfo) : CaseInfo :=
  if env.ordersTabPresent then
    match ParseOrders env.ordersPage with
    | .ok os => {ci with orders := os}
    | .error _ => ci
  else ci

/-- A `SearchCase` return value: the record, the raw HTML snapshot, the error. -/
abbrev SearchRes := Option CaseInfo × String × Option ErrKind

/-- Embedding of `SearchCase` (scraper.go, lines 75-229).  The three query
strings are only typed into the form, never inspected, so the control flow
does not depend on them.  Navigation is attempted as soon as a page exists,
and the event list records it.  Failure returns mirror the source exactly:
element-not-found and parse failures return `page.HTML()`, while page
creation, navigation, captcha and detected-search-error failures return an
empty raw page.  The pre-chain block that copies a displayed `#captcha-code`
into the form (lines 163-181) ignores all its errors and cannot change the
result, so it has no footprint here. -/
def SearchCase (env : SearchEnv) (_caseType _caseNumber _filingYear : String) :
    SearchRes × List NavEvent :=
  if env.pageCreateOk = false then ((none, "", some .pageCreateFailed), [])
  else
    let ev := [NavEvent.navigate]
    if env.navOk = false then ((none, "", some .navigationFailed), ev)
    else if env.caseTypeFound = false then
      ((none, env.html, some (.elementNotFound "case type")), ev)
    else if env.caseNumberFound = false then
      ((none, env.html, some (.elementNotFound "case number")), ev)
    else if env.yearFound = false then
      ((none, env.html, some (.elementNotFound "year")), ev)
    else
      match handleCaptcha env.captcha with
      | .error e => ((none, "", some (.captchaFailed e)), ev)
      | .ok _ =>
        if env.submitFound = false then
          ((none, env.html, some (.elementNotFound "submit")), ev)
        else
          let errMsg := checkForErrors env.selErrTexts env.bodyText
          if errMsg ≠ "" then ((none, "", some (.searchError errMsg)), ev)
          else
            match parseResults env with
            | .error msg => ((none, env.html, some (.parseFailed msg)), ev)
            | .ok ci => ((some (fetchAdditionalDetails env ci), env.html, none), ev)

/-! ## Browser session manager (`getOrCreatePage`, scraper.go lines 232-252) -/

/-- The scraper's page map (`sessions map[string]*rod.Page`) with pages
represented by the order in which they were created. -/
structure SessionState where
  sessions : List (String × Nat) := []
  nextPage : Nat := 0
  deriving DecidableEq, Repr

/-- The session key `fmt.Sprintf("session_%d", time.Now().Unix())`. -/
def sessionKey (now : Nat) : String := "session_" ++ toString now

def lookupAssoc : List (String × Nat) → String → Option Nat
  | [], _ => none
  | (k, v) :: rest, key => if k = key then some v else lookupAssoc rest key

/-- Embedding of `getOrCreatePage`: return the page stored under the current
second's key if any, otherwise create a fresh page and store it. -/
def getOrCreatePage (st : SessionState) (now : Nat) : Nat × SessionState :=
  let key := sessionKey now
  match lookupAssoc st.sessions key with
  | some p => (p, st)
  | none =>
    (st.nextPage, {sessions := (key, st.nextPage) :: st.sessions, nextPage := st.nextPage + 1})

/-! ## Concurrent query orchestrator (`SearchCaseConcurrent`) -/

structure CaseQuery where
  caseType : String := ""
  caseNumber : String := ""
  filingYear : String := ""
  deriving DecidableEq, Repr

structure CaseResult where
  query : CaseQuery := {}
  caseInfo : Option CaseInfo := none
  rawHTML : String := ""
  error : Option ErrKind := none
  deriving DecidableEq, Repr

/-- The body of one goroutine of `SearchCaseConcurrent`: run the search for
query `q` and build its result slot value. -/
def runQuery (envOf : CaseQuery → SearchEnv) (q : CaseQuery) : CaseResult :=
  let r := (SearchCase (envOf q) q.caseType q.caseNumber q.filingYear).1
  {query := q, caseInfo := r.1, rawHTML := r.2.1, error := r.2.2}

/-- One slot write of `SearchCaseConcurrent`: goroutine `i` stores the result
for query `i` at index `i` of the result slice. -/
def sccStep (envOf : CaseQuery → SearchEnv) (queries : List CaseQuery)
    (res : List CaseResult) (i : Nat) : List CaseResult :=
  match queries.get? i with
  | some q => res.set i (runQuery envOf q)
  | none => res

/-- Embedding of `SearchCaseConcurrent` (scraper.go, lines 341-369): a result
slice pre-sized to the query count, one slot written per goroutine at its
query's index.  The `order` argument is the order in which the goroutines
happen to complete their writes; each query's outcome is fixed by its own
environment `envOf q`, so a slot's value does not depend on the schedule. -/
def SearchCaseConcurrent (envOf : CaseQuery → SearchEnv) (queries : List CaseQuery)
    (order : List Nat) : List CaseResult :=
  order.foldl (sccStep envOf queries) (List.replicate queries.length {})

/-! ## HTTP layer (`GetCaseAPI` in the api handlers file)

Only the part relevant to query validation is embedded: the handler rejects
a request with an empty type, number or year parameter before the scraper is
ever invoked (the cache lookup that precedes scraping performs no navigation
either and is omitted). -/

inductive APIStatus
  | badRequest
  | ok
  | serverError
  deriving DecidableEq, Repr

/-- Embedding of `GetCaseAPI` (api handlers file, lines 148-193). -/
def GetCaseAPI (env : SearchEnv) (caseType caseNumber filingYear : String) :
    APIStatus × List NavEvent :=
  if caseType = "" ∨ caseNumber = "" ∨ filingYear = "" then (.badRequest, [])
  else
    let r := SearchCase env caseType caseNumber filingYear
    ((match r.1.2.2 with
      | some _ => .serverError
      | none => .ok), r.2)

/-! ## Derived views and invariants used by the theorems -/

/-- A URL is absolute when it carries an explicit http or https scheme. -/
def isAbsoluteURL (s : String) : Bool := strStarts s "http://" || strStarts s "https://"

/-- The raw page snapshot `SearchCase` returns for each outcome kind, read
off the return statements of the source: the snapshot accompanies
missing-element failures, parse failures and success; everything else
returns an empty string. -/
def rawOf (env : SearchEnv) : Option ErrKind → String
  | some (.elementNotFound _) => env.html
  | some (.parseFailed _) => env.html
  | none => env.html
  | some .pageCreateFailed => ""
  | some .navigationFailed => ""
  | some (.captchaFailed _) => ""
  | some (.searchError _) => ""

/-- The order date a row of the orders table parses to (the zero time when
the cell is empty, missing or unparsable), read off `processOrderRow`. -/
def rowOrderDate (r : List OrderCell) : PDate :=
  match r with
  | c0 :: _ :: _ =>
    let dateStr := strTrim c0.text
    if dateStr ≠ "" then parseDateOrZero dateStr else zeroPDate
  | _ => zeroPDate

/-- The record produced by the table tier alone. -/
def tier1 (pg : DetailsPage) : CaseInfo :=
  match pg.containerTable with
  | some rows => parseCaseDetailsFromTable rows {}
  | none => {}

/-- The record after the div tier has run on the table tier's output. -/
def tier2 (pg : DetailsPage) : CaseInfo :=
  parseCaseDetailsFromDivs pg.containerDivTexts (tier1 pg)

/-- The record after the text tier has run on the div tier's output. -/
def tier3 (pg : DetailsPage) : CaseInfo :=
  parseCaseDetailsFromText pg.containerText (tier2 pg)

/-- Invariant of the page map: stored pages are below the creation counter
and no page is stored twice. -/
def SessionWf (st : SessionState) : Prop :=
  (∀ pr ∈ st.sessions, pr.2 < st.nextPage) ∧ (st.sessions.map Prod.snd).Nodup

/-! ## Concrete fixtures for witnesses and counterexamples -/

/-- A result page whose details table yields a case number. -/
def okDetails : DetailsPage :=
  { containerTable := some [["Case Number", "CS/1234/2023"], ["Case Status", "Pending"]] }

/-- An environment in which every step of `SearchCase` succeeds (the page has
no CAPTCHA element, so the chain passes through). -/
def envOk : SearchEnv := { captcha := { captchaPresent := false }, details := okDetails }

/-- An environment whose navigation fails while the page object still has
HTML content. -/
def envNavFail : SearchEnv :=
  { envOk with navOk := false, html := "<html><body>the nav error page</body></html>" }

/-- An environment whose result page displays a CAPTCHA-rejection phrase. -/
def envWrongCaptcha : SearchEnv :=
  { envOk with bodyText := some "Wrong Captcha entered. Please try again." }

/-- An environment whose result page displays a no-record phrase. -/
def envNoRecord : SearchEnv :=
  { envOk with bodyText := some "No Record Found for the given query." }

/-- A CAPTCHA environment in interactive mode whose manual input times out
while a remote solution is available the whole time. -/
def envManualAbort : CaptchaEnv :=
  { headless := false, manualValue := fun _ => "", solutionFile := fun _ => some "XYZ42" }

/-- The three bulk queries of the C1 witness. -/
def wQueries : List CaseQuery :=
  [{caseNumber := "100", caseType := "CS", filingYear := "2023"},
   {caseNumber := "200", caseType := "CS", filingYear := "2023"},
   {caseNumber := "300", caseType := "CS", filingYear := "2023"}]

/-- Per-query environments for the C1 witness: query 2 fails, 1 and 3 succeed. -/
def wEnvOf (q : CaseQuery) : SearchEnv :=
  if q.caseNumber = "200" then {envOk with navOk := false} else envOk

/-- Orders-page fixture: a header row, a kept row with a PDF link, a row whose
date does not parse, and a row from 1899. -/
def wRows : List (List OrderCell) :=
  [[{text := "Date"}, {text := "Description"}],
   [{text := "15-03-2023"}, {text := "Order one", links := ["/orders/o1.pdf"]}],
   [{text := "bad-date"}, {text := "dropped row", links := ["x.pdf"]}],
   [{text := "01-01-1899"}, {text := "too old"}]]

def wOrdersPage : OrdersPage :=
  { selectorTable := some wRows, pageURL := "https://court.example.gov.in/app/case/view" }

/-! ## Helper lemmas -/

theorem lookupAssoc_mem {l : List (String × Nat)} {k : String} {v : Nat}
    (h : lookupAssoc l k = some v) : (k, v) ∈ l := by
  induction l with
  | nil => simp [lookupAssoc] at h
  | cons hd tl ih =>
    rcases hd with ⟨k0, v0⟩
    simp only [lookupAssoc] at h
    split at h
    · rename_i hk
      injection h with hv
      subst hk; subst hv
      exact List.mem_cons_self _ _
    · exact List.mem_cons_of_mem _ (ih h)

/-! ## Claim theorems -/

/-- Claim C10: the date parser maps each supported literal format for
15 March 2023 to that calendar date, and returns an error result (not an
uncontrolled exception) on "not-a-date". -/
theorem c10_parseDate_formats :
    parseDate "15-03-2023" = .ok ⟨2023, 3, 15⟩ ∧
    parseDate "15/03/2023" = .ok ⟨2023, 3, 15⟩ ∧
    parseDate "15-Mar-2023" = .ok ⟨2023, 3, 15⟩ ∧
    parseDate "15 March 2023" = .ok ⟨2023, 3, 15⟩ ∧
    parseDate "2023-03-15" = .ok ⟨2023, 3, 15⟩ ∧
    parseDate "not-a-date" = .error "unable to parse date: not-a-date" :=
  ⟨rfl, rfl, rfl, rfl, rfl, rfl⟩

/-- Claim C2 counterexample: the core `SearchCase` performs no validation —
a query with an empty case type still triggers navigation (and here even
completes without error), so the claim that search fails before any
navigation on a missing field is false at this input. -/
theorem c2_counterexample :
    (SearchCase envOk "" "1234" "2023").2 = [NavEvent.navigate] ∧
    (SearchCase envOk "" "1234" "2023").1.2.2 = none :=
  ⟨rfl, rfl⟩

/-- Claim C2 amended: empty-field queries are rejected before any navigation
only by the HTTP layer — `GetCaseAPI` returns a bad-request response without
invoking the scraper, so no navigation side effect is observed; the core
`SearchCase` itself navigates unconditionally. -/
theorem c2_api_validates (env : SearchEnv) (t n y : String)
    (h : t = "" ∨ n = "" ∨ y = "") : GetCaseAPI env t n y = (.badRequest, []) := by
  unfold GetCaseAPI
  rw [if_pos h]

/-- Witness for the amended C2 theorem at a concrete empty-field query. -/
theorem c2_api_validates_witness : GetCaseAPI envOk "" "1234" "2023" = (.badRequest, []) :=
  c2_api_validates envOk "" "1234" "2023" (Or.inl rfl)

/-- Claim C3 counterexample: two page acquisitions within the same wall-clock
second (here second 100) return the same page even though no page existed
beforehand — the session key collides, so unrelated queries share a page. -/
theorem c3_counterexample :
    (getOrCreatePage (getOrCreatePage ⟨[], 0⟩ 100).2 100).1 =
      (getOrCreatePage ⟨[], 0⟩ 100).1 :=
  rfl

/-- Claim C3 amended: a new page is created when no page exists for the
session key, but the key is the current wall-clock second, so two
acquisitions within the same second return the same page; only acquisitions
whose keys differ (distinct seconds) are guaranteed distinct pages. -/
theorem c3_page_sharing :
    (∀ st now, lookupAssoc st.sessions (sessionKey now) = none →
      (getOrCreatePage st now).1 = st.nextPage ∧
      (getOrCreatePage st now).2.sessions = (sessionKey now, st.nextPage) :: st.sessions) ∧
    (∀ st now,
      (getOrCreatePage (getOrCreatePage st now).2 now).1 = (getOrCreatePage st now).1) ∧
    (∀ st t1 t2, SessionWf st → sessionKey t1 ≠ sessionKey t2 →
      (getOrCreatePage (getOrCreatePage st t1).2 t2).1 ≠ (getOrCreatePage st t1).1) := by
  refine ⟨?_, ?_, ?_⟩
  · intro st now h
    simp [getOrCreatePage, h]
  · intro st now
    rcases h : lookupAssoc st.sessions (sessionKey now) with _ | p
    · simp [getOrCreatePage, h, lookupAssoc]
    · simp [getOrCreatePage, h]
  · intro st t1 t2 hwf hkey
    rcases h1 : lookupAssoc st.sessions (sessionKey t1) with _ | p1
    · rcases h2 : lookupAssoc st.sessions (sessionKey t2) with _ | p2
      · simp [getOrCreatePage, h1, lookupAssoc, hkey, h2]
      · have hmem := lookupAssoc_mem h2
        have hlt := hwf.1 _ hmem
        simp [getOrCreatePage, lookupAssoc, h1, hkey, h2]
        omega
    · rcases h2 : lookupAssoc st.sessions (sessionKey t2) with _ | p2
      · have hmem := lookupAssoc_mem h1
        have hlt := hwf.1 _ hmem
        simp [getOrCreatePage, h1, h2]
        omega
      · have hm1 := lookupAssoc_mem h1
        have hm2 := lookupAssoc_mem h2
        simp only [getOrCreatePage, h1, h2]
        intro he
        have hpair : (sessionKey t2, p2) = (sessionKey t1, p1) :=
          List.inj_on_of_nodup_map hwf.2 hm2 hm1 (by simpa using he)
        exact hkey (congrArg Prod.fst hpair).symm

/-- Witness for the amended C3 theorem: from the empty state, acquiring at
second 100 and then at second 101 yields distinct pages. -/
theorem c3_page_sharing_witness :
    (getOrCreatePage (getOrCreatePage ⟨[], 0⟩ 100).2 101).1 ≠
      (getOrCreatePage ⟨[], 0⟩ 100).1 :=
  c3_page_sharing.2.2 ⟨[], 0⟩ 100 101 (by constructor <;> simp) (by decide)

/-- Claim C4 counterexample: a navigation failure returns an error with an
empty raw page even though the page object still holds HTML, so the claim
that every failing query carries the raw page snapshot is false here. -/
theorem c4_counterexample :
    (SearchCase envNavFail "CS" "1" "2023").1.2.2 = some .navigationFailed ∧
    (SearchCase envNavFail "CS" "1" "2023").1.2.1 = "" ∧
    envNavFail.html ≠ "" :=
  ⟨rfl, rfl, by decide⟩

/-- Claim C4 amended: the raw page snapshot accompanies exactly the
missing-element failures, the parse failures and the successful results;
page-creation, navigation, CAPTCHA and detected-search-error outcomes return
an empty raw page. -/
theorem c4_raw_page (env : SearchEnv) (t n y : String) :
    (SearchCase env t n y).1.2.1 = rawOf env (SearchCase env t n y).1.2.2 := by
  unfold SearchCase
  dsimp only
  repeat' split
  all_goals rfl

/-- Claim C5 counterexample: a result page whose body shows the known
phrase "wrong captcha" is not treated as an error — `checkForErrors` does not
scan for it, so the query proceeds to a successful parse instead of becoming
a domain-level error. -/
theorem c5_counterexample :
    strContains (lowerStr "Wrong Captcha entered. Please try again.") "wrong captcha" = true ∧
    (SearchCase envWrongCaptcha "CS" "1" "2023").1.2.2 = none ∧
    (SearchCase envWrongCaptcha "CS" "1" "2023").1.1.isSome = true :=
  ⟨by decide, rfl, rfl⟩

/-- Claim C5 amended: after submission the driver checks the error-selector
texts and scans the body (case-insensitively) for "no record", "not found"
and "invalid case"; any such phrase converts the outcome into the single
generic search error "No records found for the given case details" — there
is no scan for "wrong captcha" and no distinct captcha-rejected outcome. -/
theorem c5_error_scan (env : SearchEnv) (t n y b : String) (s : Option String)
    (hpc : env.pageCreateOk = true) (hnav : env.navOk = true)
    (hct : env.caseTypeFound = true) (hcn : env.caseNumberFound = true)
    (hy : env.yearFound = true)
    (hcap : handleCaptcha env.captcha = .ok s)
    (hsub : env.submitFound = true)
    (hsel : selScan env.selErrTexts = none)
    (hbody : env.bodyText = some b)
    (hmatch : strContains (lowerStr b) "no record" = true ∨
      strContains (lowerStr b) "not found" = true ∨
      strContains (lowerStr b) "invalid case" = true) :
    (SearchCase env t n y).1 =
      (none, "", some (.searchError "No records found for the given case details")) := by
  have hmsg : checkForErrors env.selErrTexts env.bodyText =
      "No records found for the given case details" := by
    unfold checkForErrors
    rw [hsel, hbody]
    rcases hmatch with h | h | h <;> simp [h]
  unfold SearchCase
  simp [hpc, hnav, hct, hcn, hy, hsub, hcap, hmsg]

/-- Witness for the amended C5 theorem: a body showing "No Record Found"
yields the generic search error. -/
theorem c5_error_scan_witness :
    (SearchCase envNoRecord "CS" "1" "2023").1 =
      (none, "", some (.searchError "No records found for the given case details")) :=
  c5_error_scan envNoRecord "CS" "1" "2023" "No Record Found for the given query." none
    rfl rfl rfl rfl rfl rfl rfl rfl rfl (Or.inl (by decide))

/-- Unfolding equation for one poll of the remote-solution wait. -/
theorem waitGo_succ (file : Nat → Option String) (deadline fuel now : Nat) :
    waitGo file deadline (fuel + 1) now =
      if now < deadline then
        (if strTrim ((file now).getD "") ≠ ""
         then (some (strTrim ((file now).getD "")), now)
         else waitGo file deadline fuel (now + 2))
      else (none, now) := by
  rfl

/-- When the solution file never holds non-blank text and the remaining time
is even and covered by the fuel, the wait returns no solution exactly at its
deadline. -/
theorem waitGo_none_deadline (file : Nat → Option String) (deadline : Nat)
    (hfile : ∀ t, strTrim ((file t).getD "") = "") :
    ∀ fuel now, now ≤ deadline → 2 ∣ (deadline - now) → deadline ≤ now + 2 * fuel →
      waitGo file deadline fuel now = (none, deadline) := by
  intro fuel
  induction fuel with
  | zero =>
    intro now h1 _ h3
    have heq : deadline = now := by omega
    subst heq
    simp [waitGo]
  | succ f ih =>
    intro now h1 h2 h3
    by_cases hlt : now < deadline
    · have h4 : now + 2 ≤ deadline := by omega
      rw [waitGo_succ, if_pos hlt, hfile now]
      simp only [ne_eq, not_true_eq_false, if_false]
      exact ih (now + 2) h4 (by omega) (by omega)
    · have heq : deadline = now := by omega
      rw [waitGo_succ, if_neg hlt, heq]

/-- The sixty-poll manual wait times out when the input field stays empty. -/
theorem manualGo_empty (value : Nat → String) (hval : ∀ t, value t = "") :
    ∀ fuel now, manualGo value fuel now = (.error (), now + fuel) := by
  intro fuel
  induction fuel with
  | zero => intro now; simp [manualGo]
  | succ f ih =>
    intro now
    rw [manualGo, hval (now + 1)]
    simp only [ne_eq, not_true_eq_false, if_false, ih]
    rw [Nat.add_assoc, Nat.add_comm 1 f]

/-- Claim C6 counterexample: in interactive mode with no OCR keys, a manual
wait that times out aborts the whole chain with a manual-input error — the
remote handoff step is never attempted even though its solution file holds
"XYZ42" the whole time, and the returned error is not the unsolved error. -/
theorem c6_counterexample :
    handleCaptcha envManualAbort = .error .manualFailed ∧
    envManualAbort.headless = false ∧
    strTrim ((envManualAbort.solutionFile 0).getD "") = "XYZ42" ∧
    CaptchaErr.manualFailed ≠ CaptchaErr.unsolved :=
  ⟨rfl, rfl, rfl, by decide⟩

/-- Claim C6 amended: the chain passes through when no CAPTCHA element is
present; the steps run in fixed order, each later step only when no earlier
step yielded a non-empty solution; when all attempted steps yield no text
the chain returns the CAPTCHA-unsolved error — except that a failing
interactive manual-input step (non-headless mode) aborts the chain at once
with a manual-input error, skipping the remote handoff. -/
theorem c6_chain (e : CaptchaEnv) :
    (e.captchaPresent = false → handleCaptcha e = .ok none) ∧
    (e.captchaPresent = true → e.imageOk = true → e.twoKey ≠ "" → e.twoRes ≠ "" →
      e.inputFieldFound = true → handleCaptcha e = .ok (some e.twoRes)) ∧
    (e.captchaPresent = true → e.imageOk = true → (e.twoKey = "" ∨ e.twoRes = "") →
      e.antiKey ≠ "" → e.antiRes ≠ "" → e.inputFieldFound = true →
      handleCaptcha e = .ok (some e.antiRes)) ∧
    (e.captchaPresent = true → e.imageOk = true → (e.twoKey = "" ∨ e.twoRes = "") →
      (e.antiKey = "" ∨ e.antiRes = "") → e.headless = true →
      (∀ t, strTrim ((e.solutionFile t).getD "") = "") →
      handleCaptcha e = .error .unsolved) ∧
    (e.captchaPresent = true → e.imageOk = true → (e.twoKey = "" ∨ e.twoRes = "") →
      (e.antiKey = "" ∨ e.antiRes = "") → e.headless = false →
      (∀ t, e.manualValue t = "") →
      handleCaptcha e = .error .manualFailed) := by
  refine ⟨?_, ?_, ?_, ?_, ?_⟩
  · intro hp
    simp [handleCaptcha, handleCaptchaT, hp]
  · intro hp hi h2k h2r hin
    simp [handleCaptcha, handleCaptchaT, captchaAfterManual, hp, hi, h2k, h2r, hin]
  · intro hp hi h2 hak har hin
    by_cases hk2 : e.twoKey = "" <;> rcases h2 with h2 | h2 <;>
      simp [handleCaptcha, handleCaptchaT, captchaAfterManual, hp, hi, hk2, h2, hak, har, hin]
  · intro hp hi h2 ha hh hfile
    have hwait : ∀ t0, waitForManualSolution e.solutionFile 60 t0 = (none, t0 + 60) := by
      intro t0
      unfold waitForManualSolution
      exact waitGo_none_deadline e.solutionFile (t0 + 60) hfile 60 t0 (by omega) (by omega)
        (by omega)
    by_cases hk2 : e.twoKey = "" <;> rcases h2 with h2 | h2 <;>
      by_cases hka : e.antiKey = "" <;> rcases ha with ha | ha <;>
      by_cases hsave : e.saveOk = true <;>
      simp [handleCaptcha, handleCaptchaT, captchaAfterManual, hp, hi, hh, hk2, h2, hka, ha,
        hsave, hwait]
  · intro hp hi h2 ha hh hman
    have hmg := manualGo_empty e.manualValue hman
    by_cases hk2 : e.twoKey = "" <;> rcases h2 with h2 | h2 <;>
      by_cases hka : e.antiKey = "" <;> rcases ha with ha | ha <;>
      by_cases hmf : e.manualFieldFound = true <;>
      simp [handleCaptcha, handleCaptchaT, waitForManualCaptchaInput, hp, hi, hh, hk2, h2,
        hka, ha, hmf, hmg]

/-- Witness for the amended C6 theorem: with a CAPTCHA present, no OCR keys,
headless mode and an always-empty solution file, the chain ends unsolved. -/
theorem c6_chain_witness : handleCaptcha ({} : CaptchaEnv) = .error .unsolved :=
  (c6_chain {}).2.2.2.1 rfl rfl (Or.inl rfl) (Or.inl rfl) rfl (fun _ => rfl)

/-- Claim C7: with no OCR credentials, headless mode and no remote solution
ever written, the chain terminates with the CAPTCHA-unsolved error no later
than sixty seconds (the configured remote-wait deadline) after it starts —
every wait in the chain is bounded. -/
theorem c7_captcha_deadline (e : CaptchaEnv) (now : Nat)
    (hp : e.captchaPresent = true) (hi : e.imageOk = true)
    (h2 : e.twoKey = "") (ha : e.antiKey = "") (hh : e.headless = true)
    (hfile : ∀ t, strTrim ((e.solutionFile t).getD "") = "") :
    (handleCaptchaT e now).1 = .error .unsolved ∧ (handleCaptchaT e now).2 ≤ now + 60 := by
  have hwait : ∀ t0, waitForManualSolution e.solutionFile 60 t0 = (none, t0 + 60) := by
    intro t0
    unfold waitForManualSolution
    exact waitGo_none_deadline e.solutionFile (t0 + 60) hfile 60 t0 (by omega) (by omega)
      (by omega)
  by_cases hsave : e.saveOk = true <;>
    simp [handleCaptchaT, captchaAfterManual, hp, hi, h2, ha, hh, hsave, hwait]

/-- Witness for the C7 theorem at a concrete start time. -/
theorem c7_captcha_deadline_witness :
    (handleCaptchaT ({} : CaptchaEnv) 5).1 = .error .unsolved ∧
    (handleCaptchaT ({} : CaptchaEnv) 5).2 ≤ 5 + 60 :=
  c7_captcha_deadline {} 5 rfl rfl rfl rfl rfl (fun _ => rfl)

/-- Slot writes preserve the length of the result slice. -/
theorem sccFoldl_length (envOf : CaseQuery → SearchEnv) (queries : List CaseQuery) :
    ∀ (l : List Nat) (acc : List CaseResult),
      (l.foldl (sccStep envOf queries) acc).length = acc.length := by
  intro l
  induction l with
  | nil => intro acc; rfl
  | cons a l ih =>
    intro acc
    rw [List.foldl_cons, ih]
    unfold sccStep
    cases queries.get? a <;> simp

/-- A slot whose index never occurs in the completion order keeps its value. -/
theorem sccFoldl_get_notmem (envOf : CaseQuery → SearchEnv) (queries : List CaseQuery) :
    ∀ (l : List Nat) (acc : List CaseResult) (i : Nat), i ∉ l →
      (l.foldl (sccStep envOf queries) acc).get? i = acc.get? i := by
  intro l
  induction l with
  | nil => intro acc i _; rfl
  | cons a l ih =>
    intro acc i hi
    have hia : i ≠ a := fun he => hi (he ▸ List.mem_cons_self a l)
    have hil : i ∉ l := fun hm => hi (List.mem_cons_of_mem a hm)
    rw [List.foldl_cons, ih _ _ hil]
    unfold sccStep
    cases queries.get? a with
    | none => rfl
    | some q => exact List.get?_set_ne _ _ (Ne.symm hia)

/-- A slot whose index occurs in the completion order ends up holding the
result of its own query, no matter where in the order it occurs. -/
theorem sccFoldl_get_mem (envOf : CaseQuery → SearchEnv) (queries : List CaseQuery) :
    ∀ (l : List Nat) (acc : List CaseResult), acc.length = queries.length →
      ∀ i q, queries.get? i = some q → i ∈ l →
        (l.foldl (sccStep envOf queries) acc).get? i = some (runQuery envOf q) := by
  intro l
  induction l with
  | nil => intro acc _ i q _ hmem; exact absurd hmem (List.not_mem_nil i)
  | cons a l ih =>
    intro acc hlen i q hq hmem
    have hstep : ∀ j, ((sccStep envOf queries) acc j).length = queries.length := by
      intro j
      unfold sccStep
      cases queries.get? a <;> cases queries.get? j <;> simp [hlen]
    by_cases hil : i ∈ l
    · rw [List.foldl_cons]
      exact ih (sccStep envOf queries acc a) (hstep a) i q hq hil
    · have hia : i = a := by
        rcases List.mem_cons.mp hmem with h | h
        · exact h
        · exact absurd h hil
      subst hia
      rw [List.foldl_cons, sccFoldl_get_notmem envOf queries l _ i hil]
      have hi : i < queries.length := by
        by_contra hge
        rw [List.get?_eq_none.mpr (Nat.le_of_not_lt hge)] at hq
        exact Option.noConfusion hq
      unfold sccStep
      rw [hq]
      exact List.get?_set_eq_of_lt _ (hlen ▸ hi)

/-- Claim C1: for every input query sequence and every completion order that
is a permutation of the indices, `SearchCaseConcurrent` returns exactly one
result per query, and the result at index i is the result of running the
query at index i — regardless of the order in which the individual searches
complete, including schedules where some queries fail and others succeed. -/
theorem c1_slot_ordering (envOf : CaseQuery → SearchEnv) (queries : List CaseQuery)
    (order : List Nat) (h : order.Perm (List.range queries.length)) :
    SearchCaseConcurrent envOf queries order = queries.map (runQuery envOf) ∧
    (SearchCaseConcurrent envOf queries order).length = queries.length := by
  have hlen0 : (List.replicate queries.length ({} : CaseResult)).length = queries.length :=
    List.length_replicate _ _
  have hlen : (SearchCaseConcurrent envOf queries order).length = queries.length := by
    unfold SearchCaseConcurrent
    rw [sccFoldl_length]
    exact hlen0
  refine ⟨?_, hlen⟩
  apply List.ext_get?_iff.mpr
  intro n
  by_cases hn : n < queries.length
  · obtain ⟨q, hq⟩ : ∃ q, queries.get? n = some q := by
      cases hget : queries.get? n with
      | none => exact absurd (List.get?_eq_none.mp hget) (Nat.not_le_of_lt hn)
      | some q => exact ⟨q, rfl⟩
    have hmem : n ∈ order := h.mem_iff.mpr (List.mem_range.mpr hn)
    unfold SearchCaseConcurrent
    rw [sccFoldl_get_mem envOf queries order _ hlen0 n q hq hmem, List.get?_map, hq]
    rfl
  · have h1 : (SearchCaseConcurrent envOf queries order).get? n = none :=
      List.get?_eq_none.mpr (by rw [hlen]; exact Nat.le_of_not_lt hn)
    have h2 : (List.map (runQuery envOf) queries).get? n = none :=
      List.get?_eq_none.mpr (by simpa using Nat.le_of_not_lt hn)
    rw [h1, h2]

/-- Witness for the C1 theorem: three queries completing in the order
2, 3, 1, where query 2 fails with a navigation error and queries 1 and 3
succeed, still produce three results in input order. -/
theorem c1_slot_ordering_witness :
    ([1, 2, 0] : List Nat).Perm (List.range wQueries.length) ∧
    (SearchCaseConcurrent wEnvOf wQueries [1, 2, 0] = wQueries.map (runQuery wEnvOf) ∧
      (SearchCaseConcurrent wEnvOf wQueries [1, 2, 0]).length = wQueries.length) := by
  have hp : ([1, 2, 0] : List Nat).Perm (List.range wQueries.length) := by
    have h1 : ([1, 2, 0] : List Nat).Perm [1, 0, 2] := List.Perm.cons 1 (List.Perm.swap 0 2 [])
    have h2 : ([1, 0, 2] : List Nat).Perm [0, 1, 2] := List.Perm.swap 0 1 [2]
    exact h1.trans h2
  exact ⟨hp, c1_slot_ordering wEnvOf wQueries [1, 2, 0] hp⟩

/-- The case-history pass only touches the status field. -/
theorem parseCaseHistoryGo_caseNumber (rows : List String) :
    ∀ ci : CaseInfo, (parseCaseHistoryGo rows ci).caseNumber = ci.caseNumber := by
  induction rows with
  | nil => intro ci; rfl
  | cons r rs ih =>
    intro ci
    unfold parseCaseHistoryGo
    dsimp only
    split
    · rfl
    · split
      · rw [ih]
      · rw [ih]

theorem parseCaseHistory_caseNumber (pg : DetailsPage) (ci : CaseInfo) :
    (parseCaseHistory pg ci).caseNumber = ci.caseNumber := by
  unfold parseCaseHistory
  cases pg.historyRows
  · rfl
  · rw [parseCaseHistoryGo_caseNumber]

/-- The extractor dispatcher written through the tier views; this is how the
mutation sequence of the Go code reads once the container check passed. -/
theorem parseCaseDetails_eq (pg : DetailsPage) (hc : pg.containerPresent = true) :
    ParseCaseDetails pg =
      (let ci2 := if (tier1 pg).caseNumber = ""
        then parseCaseDetailsFromDivs pg.containerDivTexts (tier1 pg) else tier1 pg
       let ci3 := if ci2.caseNumber = ""
        then parseCaseDetailsFromText pg.containerText ci2 else ci2
       if ci3.caseNumber = "" then .error "failed to extract case number"
       else .ok (parseCaseHistory pg {ci3 with parties := parseParties pg})) := by
  unfold ParseCaseDetails tier1
  rw [if_neg (by simp [hc])]

/-- Claim C8: the extractor applies its three strategies in order and keeps
the first non-empty case number — a later tier runs only while the case
number is still empty — and when all three tiers leave it empty the
extraction fails with the missing-case-number error. -/
theorem c8_extractor (pg : DetailsPage) (hc : pg.containerPresent = true) :
    ((tier1 pg).caseNumber ≠ "" →
      ∃ ci, ParseCaseDetails pg = .ok ci ∧ ci.caseNumber = (tier1 pg).caseNumber) ∧
    ((tier1 pg).caseNumber = "" → (tier2 pg).caseNumber ≠ "" →
      ∃ ci, ParseCaseDetails pg = .ok ci ∧ ci.caseNumber = (tier2 pg).caseNumber) ∧
    ((tier1 pg).caseNumber = "" → (tier2 pg).caseNumber = "" → (tier3 pg).caseNumber ≠ "" →
      ∃ ci, ParseCaseDetails pg = .ok ci ∧ ci.caseNumber = (tier3 pg).caseNumber) ∧
    ((tier1 pg).caseNumber = "" → (tier2 pg).caseNumber = "" → (tier3 pg).caseNumber = "" →
      ParseCaseDetails pg = .error "failed to extract case number") := by
  refine ⟨?_, ?_, ?_, ?_⟩
  · intro h1
    rw [parseCaseDetails_eq pg hc]
    dsimp only
    rw [if_neg h1, if_neg h1, if_neg h1]
    exact ⟨_, rfl, by simp [parseCaseHistory_caseNumber]⟩
  · intro h1 h2
    rw [parseCaseDetails_eq pg hc]
    dsimp only
    unfold tier2 at h2
    rw [if_pos h1, if_neg h2, if_neg h2]
    exact ⟨_, rfl, by simp [parseCaseHistory_caseNumber, tier2]⟩
  · intro h1 h2 h3
    rw [parseCaseDetails_eq pg hc]
    dsimp only
    unfold tier2 at h2
    unfold tier3 tier2 at h3
    rw [if_pos h1, if_pos h2, if_neg h3]
    exact ⟨_, rfl, by simp [parseCaseHistory_caseNumber, tier3, tier2]⟩
  · intro h1 h2 h3
    rw [parseCaseDetails_eq pg hc]
    dsimp only
    unfold tier2 at h2
    unfold tier3 tier2 at h3
    rw [if_pos h1, if_pos h2, if_pos h3]

/-- Witness for the C8 theorem: on a page whose details table holds a case
number, the table tier's value survives to the returned record. -/
theorem c8_extractor_witness :
    (tier1 okDetails).caseNumber ≠ "" ∧
    ∃ ci, ParseCaseDetails okDetails = .ok ci ∧
      ci.caseNumber = (tier1 okDetails).caseNumber := by
  have h : (tier1 okDetails).caseNumber ≠ "" := by decide
  exact ⟨h, (c8_extractor okDetails rfl).1 h⟩

/-- The order-row loop is the filter-map of the per-row processing. -/
theorem parseOrderRows_eq_filterMap (u : String) :
    ∀ rows : List (List OrderCell),
      parseOrderRows u rows = rows.filterMap (processOrderRow u) := by
  intro rows
  induction rows with
  | nil => rfl
  | cons r rs ih =>
    unfold parseOrderRows
    rw [List.filterMap_cons]
    cases processOrderRow u r <;> simp [ih]

/-- A kept order row has an order date strictly after 1900. -/
theorem processOrderRow_year (u : String) (r : List OrderCell) (o : Order)
    (h : processOrderRow u r = some o) : 1900 < o.orderDate.year := by
  rcases r with _ | ⟨c0, _ | ⟨c1, extra⟩⟩
  · exact Option.noConfusion h
  · exact Option.noConfusion h
  · unfold processOrderRow at h
    dsimp only at h
    split at h <;> split at h
    all_goals
      first
      | (rename_i hy
         injection h with h
         subst h
         exact hy)
      | exact Option.noConfusion h

/-- A row is dropped exactly when it has fewer than two cells or its parsed
order date (the zero time when unparsable or blank) has year at most 1900. -/
theorem processOrderRow_none_iff (u : String) (r : List OrderCell) :
    processOrderRow u r = none ↔ r.length < 2 ∨ (rowOrderDate r).year ≤ 1900 := by
  have hz : zeroPDate.year = 1 := rfl
  rcases r with _ | ⟨c0, _ | ⟨c1, extra⟩⟩
  · simp [processOrderRow, rowOrderDate]
  · simp [processOrderRow, rowOrderDate]
  · unfold processOrderRow rowOrderDate
    dsimp only
    split <;> split
    · rename_i hd hy
      simp only [List.length_cons]
      constructor
      · intro hcon
        exact Option.noConfusion hcon
      · intro hor
        exfalso
        rcases hor with hlen | hle
        · omega
        · omega
    · rename_i hd hy
      simp only [List.length_cons]
      constructor
      · intro _
        right
        omega
      · intro _
        trivial
    · rename_i hd hy
      rw [hz] at hy
      exact absurd hy (by decide)
    · rename_i hd hy
      simp only [List.length_cons]
      constructor
      · intro _
        right
        rw [hz]
        omega
      · intro _
        trivial

/-- The PDF-link fold either keeps its initial value (no cell has a matching
link) or ends at the resolution of some matching link. -/
theorem rowPdfLink_cases (u : String) :
    ∀ (cells : List OrderCell) (init : String),
      ((∀ c ∈ cells, c.links.find? linkMatches = none) ∧
        cells.foldl
          (fun acc c =>
            match c.links.find? linkMatches with
            | some href => makeAbsoluteURL u href
            | none => acc) init = init) ∨
      (∃ href, linkMatches href = true ∧
        cells.foldl
          (fun acc c =>
            match c.links.find? linkMatches with
            | some href => makeAbsoluteURL u href
            | none => acc) init = makeAbsoluteURL u href) := by
  intro cells
  induction cells with
  | nil => intro init; left; exact ⟨by simp, rfl⟩
  | cons c cs ih =>
    intro init
    rw [List.foldl_cons]
    cases hc : c.links.find? linkMatches with
    | none =>
      rcases ih init with ⟨hall, heq⟩ | ⟨href, hm, heq⟩
      · left
        refine ⟨?_, ?_⟩
        · intro c2 hc2
          rcases List.mem_cons.mp hc2 with h | h
          · exact h ▸ hc
          · exact hall _ h
        · simp only [hc]
          exact heq
      · right
        exact ⟨href, hm, by simp only [hc]; exact heq⟩
    | some href0 =>
      rcases ih (makeAbsoluteURL u href0) with ⟨hall, heq⟩ | ⟨href, hm, heq⟩
      · right
        exact ⟨href0, List.find?_some hc, by simp only [hc]; exact heq⟩
      · right
        exact ⟨href, hm, by simp only [hc]; exact heq⟩

theorem isPreOf_append (p r : List Char) : isPreOf p (p ++ r) = true := by
  induction p with
  | nil => rfl
  | cons c p ih => simp [isPreOf, ih]

theorem isPreOf_exists {p l : List Char} (h : isPreOf p l = true) : ∃ r, l = p ++ r := by
  induction p generalizing l with
  | nil => exact ⟨l, rfl⟩
  | cons c p ih =>
    cases l with
    | nil => exact Bool.noConfusion h
    | cons c2 l2 =>
      simp only [isPreOf, Bool.and_eq_true, decide_eq_true_eq] at h
      obtain ⟨h1, h2⟩ := h
      subst h1
      rcases ih h2 with ⟨r, hr⟩
      exact ⟨r, by rw [hr, List.cons_append]⟩

theorem splitChL_ne_nil (sep : Char) (l : List Char) : splitChL sep l ≠ [] := by
  cases l with
  | nil => simp [splitChL]
  | cons c cs =>
    unfold splitChL
    split
    · simp
    · split <;> simp

/-- Unfolding equation for one character of the slash splitter. -/
theorem splitChL_cons (sep c : Char) (cs : List Char) :
    splitChL sep (c :: cs) =
      if c = sep then [] :: splitChL sep cs
      else
        match splitChL sep cs with
        | t :: ts => (c :: t) :: ts
        | [] => [[c]] := rfl

/-- Splitting a URL of the shape `scheme ++ "//" ++ rest` on slashes. -/
theorem splitChL_append_of (p : List Char) (hp : ∀ c ∈ p, c ≠ '/') (r : List Char) :
    splitChL '/' (p ++ '/' :: '/' :: r) = p :: [] :: splitChL '/' r := by
  induction p with
  | nil => simp [splitChL]
  | cons c p ih =>
    have hc : c ≠ '/' := hp c (List.mem_cons_self _ _)
    have hp2 : ∀ x ∈ p, x ≠ '/' := fun x hx => hp x (List.mem_cons_of_mem _ hx)
    rw [List.cons_append, splitChL_cons, if_neg hc, ih hp2]

theorem strData_append (a b : String) : (a ++ b).data = a.data ++ b.data := rfl

theorem joinChL_cons₂ (sep : Char) (a b : List Char) (rest : List (List Char)) :
    joinChL sep (a :: b :: rest) = a ++ sep :: joinChL sep (b :: rest) := rfl

/-- Joining `scheme :: "" :: X` on slashes and appending `"/" ++ z` always
yields a list of the shape `scheme ++ "//" ++ …`. -/
theorem joinChL_scheme_append (p : List Char) (X : List (List Char)) (z : List Char) :
    ∃ w, joinChL '/' (p :: [] :: X) ++ '/' :: z = p ++ '/' :: '/' :: w := by
  cases X with
  | nil =>
    refine ⟨z, ?_⟩
    rw [joinChL_cons₂]
    show (p ++ '/' :: ([] : List Char)) ++ '/' :: z = _
    simp
  | cons x xs =>
    refine ⟨joinChL '/' (x :: xs) ++ '/' :: z, ?_⟩
    rw [joinChL_cons₂, joinChL_cons₂]
    simp [List.append_assoc]

/-- The resolver keeps the page's scheme-and-host shape: with an absolute
page URL and a relative link, the result still reads `scheme//…`. -/
theorem absolute_of_scheme (p : List Char) (hp : ∀ c ∈ p, c ≠ '/') (u rel : String)
    (r : List Char) (hu : u.data = p ++ '/' :: '/' :: r)
    (hrel : ¬(strStarts rel "http://" || strStarts rel "https://") = true) :
    ∃ w : List Char, (makeAbsoluteURL u rel).data = p ++ '/' :: '/' :: w := by
  unfold makeAbsoluteURL
  rw [if_neg hrel]
  unfold splitCh
  rw [hu, splitChL_append_of p hp r]
  cases hL : splitChL '/' r with
  | nil => exact absurd hL (splitChL_ne_nil '/' r)
  | cons t1 ts =>
    simp only [List.map_cons]
    rw [if_pos (by simp)]
    by_cases hslash : strStarts rel "/" = true
    · rw [if_pos hslash]
      refine ⟨?_, ?_⟩
      case _ => exact t1 ++ rel.data
      rw [strData_append]
      unfold joinSlash
      simp only [List.take_succ_cons, List.take_zero, List.map_cons, List.map_nil]
      show joinChL '/' [p, ([] : List Char), t1] ++ rel.data = _
      simp [joinChL, List.append_assoc]
    · rw [if_neg hslash]
      rw [List.dropLast_cons₂, List.dropLast_cons₂]
      unfold joinSlash
      rw [strData_append, strData_append]
      dsimp only [List.map_cons]
      obtain ⟨w, hw⟩ := joinChL_scheme_append p
        (((String.mk t1 :: ts.map String.mk).dropLast).map String.data) rel.data
      refine ⟨w, ?_⟩
      rw [← hw]
      simp [List.append_assoc]

/-- Resolution against an absolute page URL always yields an absolute URL. -/
theorem makeAbsoluteURL_absolute (u rel : String) (h : isAbsoluteURL u = true) :
    isAbsoluteURL (makeAbsoluteURL u rel) = true := by
  by_cases habs : (strStarts rel "http://" || strStarts rel "https://") = true
  · unfold makeAbsoluteURL
    rw [if_pos habs]
    exact habs
  · unfold isAbsoluteURL at h
    simp only [Bool.or_eq_true] at h
    rcases h with h1 | h1
    · rcases isPreOf_exists h1 with ⟨r, hr⟩
      have hu : u.data = "http:".data ++ '/' :: '/' :: r := hr
      rcases absolute_of_scheme "http:".data (by decide) u rel r hu habs with ⟨w, hw⟩
      unfold isAbsoluteURL strStarts
      simp only [Bool.or_eq_true]
      left
      rw [hw]
      have hsh : "http:".data ++ '/' :: '/' :: w = "http://".data ++ w := rfl
      rw [hsh]
      exact isPreOf_append _ _
    · rcases isPreOf_exists h1 with ⟨r, hr⟩
      have hu : u.data = "https:".data ++ '/' :: '/' :: r := hr
      rcases absolute_of_scheme "https:".data (by decide) u rel r hu habs with ⟨w, hw⟩
      unfold isAbsoluteURL strStarts
      simp only [Bool.or_eq_true]
      right
      rw [hw]
      have hsh : "https:".data ++ '/' :: '/' :: w = "https://".data ++ w := rfl
      rw [hsh]
      exact isPreOf_append _ _

/-- A kept row with a pdf-containing link carries a non-trivially resolved
absolute link. -/
theorem processOrderRow_pdf (u : String) (hu : isAbsoluteURL u = true)
    (r : List OrderCell) (o : Order) (h : processOrderRow u r = some o)
    (hpdf : ∃ c ∈ r, ∃ href ∈ c.links, strContains (lowerStr href) "pdf" = true) :
    isAbsoluteURL o.pdfLink = true := by
  rcases r with _ | ⟨c0, _ | ⟨c1, extra⟩⟩
  · exact Option.noConfusion h
  · exact Option.noConfusion h
  · unfold processOrderRow at h
    dsimp only at h
    split at h <;> split at h
    all_goals
      first
      | exact Option.noConfusion h
      | (injection h with h
         subst h
         dsimp only
         unfold rowPdfLink
         rcases rowPdfLink_cases u (c0 :: c1 :: extra) "" with ⟨hall, _⟩ | ⟨href, _, heq⟩
         · exfalso
           rcases hpdf with ⟨c, hc, href, hhref, hmatch⟩
           have hnone : c.links.find? linkMatches = none := hall c hc
           rw [List.find?_eq_none] at hnone
           have hlm : linkMatches href = true := by
             unfold linkMatches
             rw [hmatch]
             rfl
           exact hnone href hhref hlm
         · rw [heq]
           exact makeAbsoluteURL_absolute u href hu)

/-- Claim C9: order extraction drops exactly the rows whose parsed order date
has year at most 1900 (unparsable dates included), every returned order has a
later year, and every kept row that has a hyperlink whose target contains
"pdf" carries a pdfLink resolved to an absolute URL against the current page. -/
theorem c9_orders (pg : OrdersPage) (rows : List (List OrderCell))
    (hrows : chosenOrdersTable pg = some rows)
    (hurl : isAbsoluteURL pg.pageURL = true) :
    ParseOrders pg = .ok ((rows.drop 1).filterMap (processOrderRow pg.pageURL)) ∧
    (∀ o ∈ (rows.drop 1).filterMap (processOrderRow pg.pageURL), 1900 < o.orderDate.year) ∧
    (∀ r ∈ rows.drop 1, processOrderRow pg.pageURL r = none ↔
      r.length < 2 ∨ (rowOrderDate r).year ≤ 1900) ∧
    (∀ r o, processOrderRow pg.pageURL r = some o →
      (∃ c ∈ r, ∃ href ∈ c.links, strContains (lowerStr href) "pdf" = true) →
      isAbsoluteURL o.pdfLink = true) := by
  refine ⟨?_, ?_, ?_, ?_⟩
  · unfold ParseOrders
    rw [hrows]
    dsimp only
    rw [parseOrderRows_eq_filterMap]
  · intro o ho
    rcases List.mem_filterMap.mp ho with ⟨r, _, hr⟩
    exact processOrderRow_year pg.pageURL r o hr
  · intro r _
    exact processOrderRow_none_iff pg.pageURL r
  · intro r o h hpdf
    exact processOrderRow_pdf pg.pageURL hurl r o h hpdf

/-- Witness for the C9 theorem on the concrete orders page: the header is
skipped, the 2023 row is kept with an absolute PDF link, and the unparsable
and 1899 rows are dropped. -/
theorem c9_orders_witness :
    ParseOrders wOrdersPage = .ok ((wRows.drop 1).filterMap (processOrderRow wOrdersPage.pageURL)) ∧
    (wRows.drop 1).filterMap (processOrderRow wOrdersPage.pageURL) =
      [{ orderDate := ⟨2023, 3, 15⟩, description := "Order one",
         pdfLink := "https://court.example.gov.in/orders/o1.pdf", judgeName := "" }] := by
  refine ⟨(c9_orders wOrdersPage wRows rfl rfl).1, ?_⟩
  rfl

end CourtFetcher
